import Mathlib

/-!
Verification of the `django-fusionbox` add-ons: the CSV-driven redirect
middleware and template-finder view (`fusionbox/middleware.py`) and the
template tags and number-formatting filters
(`fusionbox/templatetags/fusionbox_tags.py`).

The Python code is shallowly embedded: every function below mirrors the
corresponding Python function; state that Python mutates (defaultdicts of
messages, the processed-redirects dict, DOM attributes, the process-wide
locale) is passed explicitly.
-/

set_option maxHeartbeats 1000000
set_option maxRecDepth 8000

namespace Fusionbox

/-! ## String helpers mirroring the Python string methods used by the code -/

/-- Whitespace characters stripped by Python's `str.strip()` (space, tab,
newline, carriage return, vertical tab, form feed). -/
def isPySpace (c : Char) : Bool :=
  c == ' ' || c == '\t' || c == '\n' || c == '\r' || c == Char.ofNat 11 || c == Char.ofNat 12

/-- Python `str.strip()` with no arguments. -/
def pyStrip (s : String) : String :=
  (((s.toList.dropWhile isPySpace).reverse.dropWhile isPySpace).reverse).asString

/-- Python `str.strip(c)` for a single-character argument. -/
def pyStripChar (s : String) (c : Char) : String :=
  (((s.toList.dropWhile (· == c)).reverse.dropWhile (· == c)).reverse).asString

/-- Python `str.lstrip(c)` for a single-character argument. -/
def pyLStripChar (s : String) (c : Char) : String :=
  (s.toList.dropWhile (· == c)).asString

/-- Split a character list at the first occurrence of `c`; `none` when `c`
does not occur.  The separator itself is dropped, as in `str.split(c, 1)`. -/
def splitAtFirst (c : Char) : List Char → Option (List Char × List Char)
  | [] => none
  | x :: xs =>
    if x == c then some ([], xs)
    else
      match splitAtFirst c xs with
      | some (pre, post) => some (x :: pre, post)
      | none => none

/-- Helper for Python `str.split(sep)` with a one-character separator. -/
def splitOnCharAux (c : Char) : List Char → List Char → List (List Char)
  | [], acc => [acc.reverse]
  | x :: xs, acc =>
    if x == c then acc.reverse :: splitOnCharAux c xs []
    else splitOnCharAux c xs (x :: acc)

/-- Python `str.split(c)` for a one-character separator: `"".split("/") = [""]`,
`"/".split("/") = ["", ""]`, and so on. -/
def pySplitChar (s : String) (c : Char) : List String :=
  (splitOnCharAux c s.toList []).map List.asString

/-- Python `s[:-n]` for `n ≥ 0`. -/
def pyDropRight (s : String) (n : Nat) : String :=
  (s.toList.take (s.toList.length - n)).asString

/-- Python `s[-n:]` for `n ≥ 1`. -/
def pyTakeRight (s : String) (n : Nat) : String :=
  ((s.toList.reverse.take n).reverse).asString

/-- Character-list test for one list starting with another (kernel-reducible,
unlike `String.startsWith`). -/
def startsWithList : List Char → List Char → Bool
  | _, [] => true
  | [], _ :: _ => false
  | c :: cs, p :: ps => c == p && startsWithList cs ps

/-- Python `str.startswith`. -/
def pyStartsWith (s pre : String) : Bool :=
  startsWithList s.toList pre.toList

/-- Python `str.endswith`. -/
def pyEndsWith (s post : String) : Bool :=
  startsWithList s.toList.reverse post.toList.reverse

/-! ## `urllib.parse` (via `six.moves.urllib.parse`): `urlparse` and `urljoin`

`fusionbox/middleware.py` imports `urlparse` and `urljoin`.  The embedding
follows the CPython implementation, restricted to the default
`allow_fragments=True`. -/

/-- Characters allowed in a URL scheme (`urllib.parse.scheme_chars`). -/
def scheme_chars (c : Char) : Bool :=
  c.isAlphanum || c == '+' || c == '-' || c == '.'

/-- Result of `urlsplit`: scheme, netloc, path, query, fragment. -/
structure SplitResult where
  scheme : String
  netloc : String
  path : String
  query : String
  fragment : String
deriving Repr, DecidableEq

/-- Result of `urlparse`: `urlsplit` with path parameters split off. -/
structure ParseResult where
  scheme : String
  netloc : String
  path : String
  params : String
  query : String
  fragment : String
deriving Repr, DecidableEq

/-- CPython `urllib.parse.urlsplit` (with `allow_fragments=True`): detect a
scheme before the first `:`, a netloc after a leading `//` (running to the
next `/`, `?` or `#`), then split off the fragment at the first `#` and the
query at the first `?`. -/
def urlsplit (url : String) (scheme0 : String) : SplitResult :=
  let l := url.toList
  let (scheme, rest) :=
    match splitAtFirst ':' l with
    | some (before, after) =>
      if before ≠ [] && before.all scheme_chars then (before.map Char.toLower, after)
      else (scheme0.toList, l)
    | none => (scheme0.toList, l)
  let (netloc, rest) :=
    match rest with
    | '/' :: '/' :: r => r.span (fun c => !(c == '/' || c == '?' || c == '#'))
    | _ => ([], rest)
  let (rest, fragment) :=
    match splitAtFirst '#' rest with
    | some (u, f) => (u, f)
    | none => (rest, [])
  let (path, query) :=
    match splitAtFirst '?' rest with
    | some (u, q) => (u, q)
    | none => (rest, [])
  ⟨scheme.asString, netloc.asString, path.asString, query.asString, fragment.asString⟩

/-- CPython `urllib.parse._splitparams`: split `;params` off the last path
segment. -/
def splitparams (l : List Char) : List Char × List Char :=
  if l.contains '/' then
    let afterSlash := (l.reverse.takeWhile (· ≠ '/')).reverse
    let pre := l.take (l.length - afterSlash.length)
    match splitAtFirst ';' afterSlash with
    | some (a, b) => (pre ++ a, b)
    | none => (l, [])
  else
    match splitAtFirst ';' l with
    | some (a, b) => (a, b)
    | none => (l, [])

/-- CPython `urllib.parse.urlparse`. -/
def urlparse (url : String) (scheme0 : String) : ParseResult :=
  let s := urlsplit url scheme0
  let (p, par) := splitparams s.path.toList
  ⟨s.scheme, s.netloc, p.asString, par.asString, s.query, s.fragment⟩

/-- CPython `urllib.parse.urlunsplit`. -/
def urlunsplit (c : SplitResult) : String :=
  let url := c.path
  let url :=
    if c.netloc ≠ "" ∨ pyStartsWith url "//" then
      (if url ≠ "" ∧ ¬ pyStartsWith url "/" then "//" ++ c.netloc ++ "/" ++ url
       else "//" ++ c.netloc ++ url)
    else url
  let url := if c.scheme ≠ "" then c.scheme ++ ":" ++ url else url
  let url := if c.query ≠ "" then url ++ "?" ++ c.query else url
  if c.fragment ≠ "" then url ++ "#" ++ c.fragment else url

/-- CPython `urllib.parse.urlunparse`. -/
def urlunparse (c : ParseResult) : String :=
  let url := if c.params ≠ "" then c.path ++ ";" ++ c.params else c.path
  urlunsplit ⟨c.scheme, c.netloc, url, c.query, c.fragment⟩

/-- Schemes for which relative resolution is supported
(`urllib.parse.uses_relative`). -/
def uses_relative : List String :=
  ["", "ftp", "http", "gopher", "nntp", "imap", "wais", "file", "https", "shttp",
   "mms", "prospero", "rtsp", "rtspu", "sftp", "svn", "svn+ssh", "ws", "wss"]

/-- Schemes that use a network location (`urllib.parse.uses_netloc`). -/
def uses_netloc : List String :=
  ["", "ftp", "http", "gopher", "nntp", "telnet", "imap", "wais", "file", "mms",
   "https", "shttp", "snews", "prospero", "rtsp", "rtspu", "rsync", "svn",
   "svn+ssh", "sftp", "nfs", "git", "git+ssh", "ws", "wss"]

/-- Python list slice assignment `segments[1:-1] = filter(None, segments[1:-1])`:
drop empty strings from all but the first and last element. -/
def filterMiddle (xs : List String) : List String :=
  match xs with
  | [] => []
  | [a] => [a]
  | a :: rest =>
    match rest.getLast? with
    | none => [a]
    | some lastSeg => a :: (rest.dropLast.filter (· ≠ "") ++ [lastSeg])

/-- CPython `urllib.parse.urljoin` (RFC 3986 relative resolution). -/
def urljoin (base url : String) : String :=
  if base = "" then url
  else if url = "" then base
  else
    let b := urlparse base ""
    let u := urlparse url b.scheme
    if u.scheme ≠ b.scheme ∨ ¬ uses_relative.contains u.scheme then url
    else if uses_netloc.contains u.scheme ∧ u.netloc ≠ "" then urlunparse u
    else
      let netloc := if uses_netloc.contains u.scheme then b.netloc else u.netloc
      if u.path = "" ∧ u.params = "" then
        let query := if u.query = "" then b.query else u.query
        urlunparse ⟨u.scheme, netloc, b.path, b.params, query, u.fragment⟩
      else
        let base_parts := pySplitChar b.path '/'
        let base_parts :=
          if base_parts.getLast? ≠ some "" then base_parts.dropLast else base_parts
        let segments :=
          if pyStartsWith u.path "/" then pySplitChar u.path '/'
          else filterMiddle (base_parts ++ pySplitChar u.path '/')
        let resolved := segments.foldl
          (fun acc seg =>
            if seg = ".." then acc.dropLast
            else if seg = "." then acc
            else acc ++ [seg]) ([] : List String)
        let resolved :=
          if segments.getLast? = some "." ∨ segments.getLast? = some ".." then
            resolved ++ [""]
          else resolved
        let joined := String.intercalate "/" resolved
        urlunparse ⟨u.scheme, netloc, if joined = "" then "/" else joined,
          u.params, u.query, u.fragment⟩

/-! ## `django.utils.encoding.iri_to_uri` -/

/-- UTF-8 encoding of a single code point, as a list of byte values. -/
def utf8Bytes (c : Char) : List Nat :=
  let n := c.toNat
  if n < 128 then [n]
  else if n < 2048 then [192 + n / 64, 128 + n % 64]
  else if n < 65536 then [224 + n / 4096, 128 + (n / 64) % 64, 128 + n % 64]
  else [240 + n / 262144, 128 + (n / 4096) % 64, 128 + (n / 64) % 64, 128 + n % 64]

/-- Characters that `iri_to_uri` leaves unencoded: `urllib.parse.quote`'s
always-safe `_.-~` together with Django's
`safe="/#%[]=:;$&()+,!?*@'~"` (the apostrophe is written by code point). -/
def iriSafe (c : Char) : Bool :=
  c.isAlphanum || "_.-~/#%[]=:;$&()+,!?*@".toList.contains c || c == Char.ofNat 39

/-- Uppercase hexadecimal digit for `n < 16`. -/
def hexDigit (n : Nat) : Char :=
  if n < 10 then Char.ofNat (48 + n) else Char.ofNat (55 + n)

/-- Percent-encoding `%XX` of one byte value. -/
def percentEncodeByte (b : Nat) : List Char :=
  ['%', hexDigit (b / 16), hexDigit (b % 16)]

/-- Django's `iri_to_uri`: percent-encode the UTF-8 bytes of every character
outside the safe set. -/
def iri_to_uri (iri : String) : String :=
  (iri.toList.foldr
    (fun c acc =>
      (if iriSafe c then [c] else (utf8Bytes c).foldr (fun b a => percentEncodeByte b ++ a) []) ++ acc)
    []).asString

/-! ## Redirect middleware (`fusionbox/middleware.py`)

Association lists stand in for Python dicts (insertion-ordered; assignment
to an existing key updates in place), and `List (String × List String)`
stands in for a `defaultdict(list)` of messages. -/

/-- One row scraped from a redirects CSV file by `scrape_redirects`:
`source`, `target`, `status_code` from the CSV columns (short rows give
`None` for missing fields; `status_code` is modelled as the already-parsed
integer, `none` for a missing or empty field, since `int(...)` is applied to
it), plus the `filename` and `line_number` keys added while scraping. -/
structure Line where
  source : String
  target : Option String := none
  status_code : Option Int := none
  filename : String := ""
  line_number : Nat := 0
deriving Repr, DecidableEq

/-- The `Redirect` object: all fields computed by `Redirect.__init__`.
`line_number` is stored as a string because the constructor keeps
`line_number or ''` (so row `0` becomes `''`). -/
structure Redirect where
  source : String
  parsed_source : ParseResult
  target : String
  parsed_target : ParseResult
  status_code : Int
  filename : String
  line_number : String
deriving Repr, DecidableEq

/-- The `Redirect.__init__` applied to a scraped CSV row (`Redirect(**line)`):
strip the source and target, parse both, and pick the status code — `410`
when the raw target is falsy (missing or empty), otherwise the given status
code defaulting to `301`. -/
def Redirect.ofLine (l : Line) : Redirect :=
  let source := pyStrip l.source
  let target := pyStrip (l.target.getD "")
  { source := source
    parsed_source := urlparse source ""
    target := target
    parsed_target := urlparse target ""
    status_code := if l.target.getD "" ≠ "" then l.status_code.getD 301 else 410
    filename := l.filename
    line_number := if l.line_number = 0 then "" else toString l.line_number }

/-- The status-code error message built by `Redirect.validate`. -/
def Redirect.statusCodeMessage (r : Redirect) : String :=
  "ERROR: " ++ r.filename ++ ":" ++ r.line_number ++ " - Non 3xx/410 status code(" ++
    toString r.status_code ++ ")"

/-- The `Redirect.add_error`: the source only runs
`if self._errors is None: self._errors = {}` — the field and message
arguments are dropped, so no entry is ever added. -/
def Redirect.add_error (errs : Option (List (String × String)))
    (_field _message : String) : Option (List (String × String)) :=
  match errs with
  | none => some []
  | some e => some e

/-- The `Redirect.validate`: start from `self._errors or {}` and call `add_error`
for a status code that is below 300, or above 399 and not 410 (Python's
`a or b and c` associates as `a or (b and c)`). -/
def Redirect.validate (r : Redirect) (errs : Option (List (String × String))) :
    Option (List (String × String)) :=
  let errs := some (errs.getD [])
  if r.status_code < 300 ∨ (r.status_code > 399 ∧ ¬ r.status_code = 410) then
    Redirect.add_error errs "status_code" r.statusCodeMessage
  else errs

/-- The `Redirect.errors` property read on a freshly constructed redirect
(`_errors is None`, so `validate` runs first). -/
def Redirect.errorsOf (r : Redirect) : List (String × String) :=
  (r.validate none).getD []

/-- The `Redirect.is_valid` on a freshly constructed redirect: runs `validate`
and returns `bool(self._errors)` — true when there ARE errors. -/
def Redirect.is_valid (r : Redirect) : Bool :=
  !((r.validate none).getD []).isEmpty

/-- The processed-redirects table: a Python dict keyed by redirect source. -/
abbrev RDict := List (String × Redirect)

/-- A `defaultdict(list)` of messages keyed by redirect source. -/
abbrev MsgDict := List (String × List String)

/-- Python `key in dict`. -/
def dictContains : RDict → String → Bool
  | [], _ => false
  | p :: rest, k => p.1 == k || dictContains rest k

/-- Python `dict[key]` as an `Option`. -/
def dictGet? : RDict → String → Option Redirect
  | [], _ => none
  | p :: rest, k => if p.1 == k then some p.2 else dictGet? rest k

/-- Python `dict[key] = value`: update in place when the key exists
(insertion order is preserved), otherwise append. -/
def dictSet : RDict → String → Redirect → RDict
  | [], k, v => [(k, v)]
  | p :: rest, k, v => if p.1 == k then (p.1, v) :: rest else p :: dictSet rest k v

/-- The message list held by a `defaultdict(list)` at a key (`[]` when the
key is absent). -/
def msgsOf : MsgDict → String → List String
  | [], _ => []
  | p :: rest, k => if p.1 == k then p.2 else msgsOf rest k

/-- The `defaultdict(list)`: `d[k].append(m)` (creating `d[k] = [m]` for a
missing key). -/
def appendMsg : MsgDict → String → String → MsgDict
  | [], k, m => [(k, [m])]
  | p :: rest, k, m =>
    if p.1 == k then (p.1, p.2 ++ [m]) :: rest else p :: appendMsg rest k m

/-- Plain dict assignment `d[k] = v` on a message dict. -/
def setMsg : MsgDict → String → List String → MsgDict
  | [], k, v => [(k, v)]
  | p :: rest, k, v => if p.1 == k then (p.1, v) :: rest else p :: setMsg rest k v

/-- The mutable state of `preprocess_redirects`: the redirect table being
built plus the error- and warning-message dicts. -/
structure PreState where
  redirects : RDict := []
  errors : MsgDict := []
  warnings : MsgDict := []
deriving Repr, DecidableEq

/-- The duplicate-declaration warning built in the first loop of
`preprocess_redirects` (formatted from the raw CSV line). -/
def duplicateWarningMsg (l : Line) : String :=
  "WARNING: " ++ l.filename ++ ":" ++ toString l.line_number ++
    " -  Duplicate declaration of url"

/-- One iteration of the first loop of `preprocess_redirects`: build the
`Redirect`, collect its validation errors (`error_messages[source] = message`
assigns the bare message; the embedding wraps it in a singleton list to keep
the dict type — the loop is provably dead, see `Redirect.errorsOf_eq_nil`),
warn on duplicate sources, and store the redirect. -/
def processLine (st : PreState) (l : Line) : PreState :=
  let redirect := Redirect.ofLine l
  let errors :=
    if ¬ redirect.is_valid then
      redirect.errorsOf.foldl (fun e fm => setMsg e redirect.source [fm.2]) st.errors
    else st.errors
  let warnings :=
    if dictContains st.redirects redirect.source then
      appendMsg st.warnings redirect.source (duplicateWarningMsg l)
    else st.warnings
  { redirects := dictSet st.redirects redirect.source redirect
    errors := errors
    warnings := warnings }

/-- The circular-redirect error message built by `validate_redirect`. -/
def circularErrorMsg (r : Redirect) : String :=
  "ERROR: " ++ r.filename ++ ":" ++ r.line_number ++ " - Circular redirect: " ++
    r.source ++ " => " ++ r.target

/-- The possible-circular-redirect warning built by `validate_redirect`. -/
def possibleCircularMsg (r : Redirect) : String :=
  "WARNING: " ++ r.filename ++ ":" ++ r.line_number ++
    ": - Possible circular redirect if hosting on domain " ++
    r.parsed_target.netloc ++ ": " ++ r.source ++ " => " ++ r.target

/-- The local `to_url` of `validate_redirect`: the parsed target, with a
slash appended to its path in the `with_slash` pass (the case where the path
already ends in a slash returns early and never reads `to_url`). -/
def slashTarget (redirect : Redirect) (with_slash : Bool) : ParseResult :=
  if with_slash then
    { redirect.parsed_target with path := redirect.parsed_target.path ++ "/" }
  else redirect.parsed_target

/-- The inner `validate_redirect` of `preprocess_redirects`, closing over the
completed redirect table; it only appends to the error/warning dicts, passed
and returned as a pair. -/
def validate_redirect (redirects : RDict) (redirect : Redirect) (with_slash : Bool)
    (ew : MsgDict × MsgDict) : MsgDict × MsgDict :=
  if with_slash ∧ pyEndsWith redirect.parsed_target.path "/" then ew
  else
    if dictContains redirects redirect.target ∨ redirect.target = redirect.parsed_source.path then
      (appendMsg ew.1 redirect.source (circularErrorMsg redirect), ew.2)
    else if dictContains redirects (urljoin redirect.source (slashTarget redirect with_slash).path) ∧
        ¬ redirect.status_code = 410 then
      if (slashTarget redirect with_slash).netloc = "" then
        (appendMsg ew.1 redirect.source (circularErrorMsg redirect), ew.2)
      else if (slashTarget redirect with_slash).netloc ≠ "" ∧
          redirect.parsed_source.netloc = "" then
        (ew.1, appendMsg ew.2 redirect.source (possibleCircularMsg redirect))
      else ew
    else ew

/-- One iteration of the circular-redirect check loop: `validate_redirect`
without a slash, and again with a slash when `settings.APPEND_SLASH` holds. -/
def circularStep (redirects : RDict) (append_slash : Bool)
    (ew : MsgDict × MsgDict) (p : String × Redirect) : MsgDict × MsgDict :=
  let ew1 := validate_redirect redirects p.2 false ew
  if append_slash then validate_redirect redirects p.2 true ew1 else ew1

/-- The circular-redirect check loop over `processed_redirects.items()`. -/
def circularPass (redirects : RDict) (append_slash : Bool)
    (ew : MsgDict × MsgDict) : MsgDict × MsgDict :=
  redirects.foldl (circularStep redirects append_slash) ew

/-- Everything `preprocess_redirects` computes before deciding whether to
raise: the redirect table and the two message dicts.  `append_slash` is
`settings.APPEND_SLASH`. -/
def preprocessState (lines : List Line) (append_slash : Bool) : PreState :=
  let st := lines.foldl processLine {}
  let ew := circularPass st.redirects append_slash (st.errors, st.warnings)
  { redirects := st.redirects, errors := ew.1, warnings := ew.2 }

/-- The `ImproperlyConfigured` message raised by `preprocess_redirects`. -/
def improperlyConfiguredMsg : String :=
  "There were errors while parsing redirects.  Run ./manage.py validate_redirects for error details"

/-- The `preprocess_redirects`: raise `ImproperlyConfigured` when errors were
collected and `raise_errors` is set, otherwise return the redirect table
(the `warnings.warn` side effects are not modelled). -/
def preprocess_redirects (lines : List Line) (append_slash : Bool)
    (raise_errors : Bool) : Except String RDict :=
  let st := preprocessState lines append_slash
  if ¬ st.errors.isEmpty ∧ raise_errors then Except.error improperlyConfiguredMsg
  else Except.ok st.redirects

/-- A Django `HttpResponse` as far as this middleware observes it: the status
code, the `Location` header (`none` when `response['Location']` was assigned
Python `None`, i.e. `target or None` with an empty target), and the body. -/
structure HttpResponse where
  status_code : Int
  location : Option String := none
  content : String := ""
deriving Repr, DecidableEq

/-- The lookup chain at the top of `get_redirect`: the full absolute URI
first, then the IRI-to-URI encoding of the path, then the raw path. -/
def redirectFor (redirects : RDict) (path full_uri : String) : Option Redirect :=
  if dictContains redirects full_uri then dictGet? redirects full_uri
  else if dictContains redirects (iri_to_uri path) then
    dictGet? redirects (iri_to_uri path)
  else if dictContains redirects path then dictGet? redirects path
  else none

/-- The `get_redirect`: `None` when no table entry matches, otherwise an
`HttpResponse('', status=status_code)` whose `Location` header is
`target or None`. -/
def get_redirect (redirects : RDict) (path full_uri : String) : Option HttpResponse :=
  match redirectFor redirects path full_uri with
  | none => none
  | some redirect =>
    some { status_code := redirect.status_code
           location := if redirect.target ≠ "" then some redirect.target else none
           content := "" }

/-- The request fields `RedirectFallbackMiddleware.process_response` reads;
`site_domain` stands for `get_current_site(request).domain`. -/
structure RfRequest where
  get_host : String
  site_domain : String
  get_full_path : String
  build_absolute_uri : String
deriving Repr, DecidableEq

/-- The `RedirectFallbackMiddleware.process_response`: non-404 responses for the
current site pass through; everything else consults the redirect table and
falls back to the original response. -/
def RedirectFallbackMiddleware.process_response (redirects : RDict)
    (request : RfRequest) (response : HttpResponse) : HttpResponse :=
  if response.status_code ≠ 404 ∧ request.site_domain = request.get_host then response
  else
    match get_redirect redirects request.get_full_path request.build_absolute_uri with
    | some r => r
    | none => response

/-! ## `generic_template_finder_view` and `GenericTemplateFinderMiddleware` -/

/-- The observable outcome of `generic_template_finder_view`: a rendering of
a template, the `HttpResponsePermanentRedirect` issued to emulate
`CommonMiddleware`, or a raised `Http404` carrying its message. -/
inductive FinderResult where
  | rendered (template : String)
  | permanentRedirect (location : String)
  | http404 (message : String)
deriving Repr, DecidableEq

/-- Python `repr` of the possibilities tuple, as interpolated into the
`Http404` message. -/
def possibilitiesRepr (ps : List String) : String :=
  let q := String.singleton (Char.ofNat 39)
  "(" ++ String.intercalate ", " (ps.map (fun t => q ++ t ++ q)) ++ ")"

/-- The `for t in possibilities` loop of `generic_template_finder_view`.
`template_found t` abstracts `render(request, t, extra_context)` succeeding
(both `TemplateDoesNotExist` and the `IsADirectoryError`/`EISDIR` case
`continue` to the next candidate). -/
def tryTemplates (template_found : String → Bool) (append_slash : Bool)
    (path request_path : String) : List String → Option FinderResult
  | [] => none
  | t :: ts =>
    if template_found t then
      some (if pyEndsWith t ".html" ∧ ¬ pyEndsWith path request_path ∧ append_slash then
        FinderResult.permanentRedirect path
      else FinderResult.rendered t)
    else tryTemplates template_found append_slash path request_path ts

/-- The local variable `path` of `generic_template_finder_view`:
`base_path + request.path`, with a trailing slash appended when missing. -/
def finderPath (request_path : String) (base_path : String) : String :=
  let path0 := base_path ++ request_path
  if pyEndsWith path0 "/" then path0 else path0 ++ "/"

/-- The `possibilities` tuple of `generic_template_finder_view`: the
slash-stripped path plus `.html`, the left-stripped path plus `index.html`,
and the slash-stripped path. -/
def finderPossibilities (path : String) : List String :=
  [pyStripChar path '/' ++ ".html",
   pyLStripChar path '/' ++ "index.html",
   pyStripChar path '/']

/-- The `generic_template_finder_view`: append a slash when missing, try the
three template names in order, and raise `Http404` when none renders.
`append_slash` is `settings.APPEND_SLASH`. -/
def generic_template_finder_view (template_found : String → Bool)
    (append_slash : Bool) (request_path : String) (base_path : String) :
    FinderResult :=
  let path := finderPath request_path base_path
  let possibilities := finderPossibilities path
  match tryTemplates template_found append_slash path request_path possibilities with
  | some r => r
  | none =>
    FinderResult.http404 ("Template not found in any of " ++ possibilitiesRepr possibilities)

/-- The request fields `GenericTemplateFinderMiddleware` reads: the URL path
and the `_generic_template_finder_middleware_view_found` marker (read with
`getattr(..., False)`). -/
structure GtfRequest where
  path : String
  view_found : Bool := false
deriving Repr, DecidableEq

/-- The outcome of calling `generic_template_finder_view` from the
middleware: a returned response, a raised `Http404`, or a raised
`UnicodeEncodeError` (the latter arises inside Django's rendering machinery
and is represented abstractly). -/
inductive ViewOutcome where
  | ok (response : HttpResponse)
  | http404Exc
  | unicodeEncodeError
deriving Repr, DecidableEq

/-- The `GenericTemplateFinderMiddleware.process_response`: only an unmarked 404
invokes the template-finder view; `Http404` and `UnicodeEncodeError` from the
view fall back to the original response (the `urlresolvers.set_urlconf`
bookkeeping has no observable effect here). -/
def GenericTemplateFinderMiddleware.process_response (request : GtfRequest)
    (response : HttpResponse) (finder : ViewOutcome) : HttpResponse :=
  if response.status_code = 404 ∧ ¬ request.view_found then
    match finder with
    | ViewOutcome.ok r => r
    | ViewOutcome.http404Exc => response
    | ViewOutcome.unicodeEncodeError => response
  else response

/-- The `GenericTemplateFinderMiddleware.process_view` sets the marker attribute
on the request. -/
def GenericTemplateFinderMiddleware.process_view (request : GtfRequest) : GtfRequest :=
  { request with view_found := true }

/-! ## Template tags (`fusionbox/templatetags/fusionbox_tags.py`) -/

/-- An anchor element as `highlight_here` observes it: its `href` and
`class` attributes (absent attributes are `none`). -/
structure Anchor where
  href : Option String := none
  classAttr : Option String := none
deriving Repr, DecidableEq

/-- The `addclass`: `elem['class'] = elem.get('class', '')` followed by
`elem['class'] += ' ' + cls if elem['class'] else cls`.  Returns the new
value of the `class` attribute. -/
def addclass (classAttr : Option String) (cls : String) : String :=
  let c := classAttr.getD ""
  c ++ (if c ≠ "" then " " ++ cls else cls)

/-- The `is_here`: determine whether `current` is underneath `url`. -/
def is_here (current url : String) : Bool :=
  if url == "/" then current == "/"
  else if pyStartsWith current url then true
  else false

/-- The `HighlighterBase.highlight` on one element: add the highlight class. -/
def highlightElem (highlight_class : String) (a : Anchor) : Anchor :=
  { a with classAttr := some (addclass a.classAttr highlight_class) }

/-- The `HighlightHereNode.elems_to_highlight`: the anchors of the soup that
have an `href` attribute and whose `href` the current path is underneath. -/
def elems_to_highlight (path : String) (soup : List Anchor) : List Anchor :=
  soup.filter (fun a => a.href.isSome && is_here path (a.href.getD ""))

/-- The `HighlightHereNode.render` on a soup of anchors: highlight each element
of `elems_to_highlight` in place.  The highlight class defaults to `'here'`
(`self.highlight_class or 'here'`). -/
def highlight_here (path : String) (highlight_class : Option String)
    (soup : List Anchor) : List Anchor :=
  let hl :=
    match highlight_class with
    | some s => if s ≠ "" then s else "here"
    | none => "here"
  soup.map (fun a =>
    if a.href.isSome && is_here path (a.href.getD "") then highlightElem hl a else a)

/-! ## Number-formatting filters

The filters read the process-wide locale (set to `en_US.UTF-8` at module
import) and the module constant `FORMAT_TAG_ERROR_VALUE` (read from settings
at import); both live in `PyGlobals`, passed and returned explicitly so that
statelessness is expressible.  Numeric values are modelled as exact
rationals (Python `Decimal` is exact decimal arithmetic; `float` conversion
is approximated by the exact value). -/

/-- Insert a thousands separator every three digits, from the right, in a
reversed digit list. -/
def groupRev : List Char → List Char
  | a :: b :: c :: d :: rest => a :: b :: c :: ',' :: groupRev (d :: rest)
  | l => l

/-- Digit grouping of a natural number: `1234567 ↦ "1,234,567"`. -/
def addThousands (n : Nat) : String :=
  ((groupRev (toString n).toList.reverse).reverse).asString

/-- The `django.contrib.humanize`'s `intcomma` on an integer. -/
def intcomma (n : Int) : String :=
  (if n < 0 then "-" else "") ++ addThousands n.natAbs

/-- Python `int()` applied to a number: truncation toward zero. -/
def pyInt (q : ℚ) : Int :=
  if q < 0 then -⌊-q⌋ else ⌊q⌋

/-- The `decimal.ROUND_HALF_UP` to an integer: round half away from zero. -/
def roundHalfUp (q : ℚ) : Int :=
  if q < 0 then -⌊-q + 1 / 2⌋ else ⌊q + 1 / 2⌋

/-- Round half to even (the rounding of `%f` formatting). -/
def roundHalfEven (q : ℚ) : Int :=
  let f := ⌊q⌋
  let r := q - f
  if r < 1 / 2 then f
  else if 1 / 2 < r then f + 1
  else if Even f then f else f + 1

/-- The `Decimal.quantize(Decimal('1.' + '0' * places), rounding=ROUND_HALF_UP)`. -/
def quantizeHalfUp (q : ℚ) (places : Nat) : ℚ :=
  (roundHalfUp (q * 10 ^ places) : ℚ) / 10 ^ places

/-- Pad a digit string with leading zeros to the given length. -/
def padLeftZeros (s : String) (n : Nat) : String :=
  (List.replicate (n - s.length) '0').asString ++ s

/-- Fixed-point formatting with `places` decimals (rounding half to even,
as `%f` does) and optional digit grouping, as `locale.format` produces for
`en_US`. -/
def formatFixed (q : ℚ) (places : Nat) (grouping : Bool) : String :=
  let scaled := roundHalfEven (q * 10 ^ places)
  let sign := if scaled < 0 then "-" else ""
  let a := scaled.natAbs
  let ip := a / 10 ^ places
  let fp := a % 10 ^ places
  let ipStr := if grouping then addThousands ip else toString ip
  if places = 0 then sign ++ ipStr
  else sign ++ ipStr ++ "." ++ padLeftZeros (toString fp) places

/-- The `locale.currency(value, grouping=True)` for the `en_US` locale:
`$` with two fraction digits, a leading `-` for negative values. -/
def localeCurrency (q : ℚ) : String :=
  (if q < 0 then "-" else "") ++ "$" ++ formatFixed |q| 2 true

/-- The `str()` of a `Decimal` quantized to `places` decimal digits. -/
def decimalStr (q : ℚ) (places : Nat) : String :=
  formatFixed q places false

/-- The exceptions the filters can raise or catch. -/
inductive PyErr where
  | valueError
  | typeError
deriving Repr, DecidableEq

/-- Process-wide state read by the filters: the locale installed by the
module-level `locale.setlocale(locale.LC_ALL, 'en_US.UTF-8')`, and the
module constant `FORMAT_TAG_ERROR_VALUE` (from settings, defaulting to
`'error'`). -/
structure PyGlobals where
  lc_all : String := "en_US.UTF-8"
  format_tag_error_value : String := "error"
deriving Repr, DecidableEq

/-- A filter argument: a numeric value (anything `Decimal`/`float`
conversion accepts, modelled post-conversion as an exact rational), a
non-numeric string, or a non-convertible object. -/
inductive FilterArg where
  | num (q : ℚ)
  | badStr (s : String)
  | badType
deriving DecidableEq

/-- The `currency` filter: `float` the argument (an unconvertible argument
raises — `currency` has no `try`), then
`"$%s%s" % (intcomma(int(dollars)), ("%0.2f" % dollars)[-3:])`. -/
def currency (g : PyGlobals) (dollars : FilterArg) : Except PyErr String × PyGlobals :=
  match dollars with
  | FilterArg.num q =>
    let cents := (roundHalfEven (|q| * 100)).natAbs % 100
    (Except.ok ("$" ++ intcomma (pyInt q) ++ "." ++ padLeftZeros (toString cents) 2), g)
  | FilterArg.badStr _ => (Except.error PyErr.valueError, g)
  | FilterArg.badType => (Except.error PyErr.typeError, g)

/-- The `us_dollars` filter: quantize to whole dollars with
`ROUND_HALF_UP`, format with `locale.currency` and drop the trailing
`.00`; conversion failures return `FORMAT_TAG_ERROR_VALUE`. -/
def us_dollars (g : PyGlobals) (value : FilterArg) : Except PyErr String × PyGlobals :=
  match value with
  | FilterArg.num q =>
    (Except.ok (pyDropRight (localeCurrency (roundHalfUp q : ℚ)) 3), g)
  | FilterArg.badStr _ => (Except.ok g.format_tag_error_value, g)
  | FilterArg.badType => (Except.ok g.format_tag_error_value, g)

/-- The cent symbol `u'¢'` appended by `us_cents`. -/
def centSymbol : String := String.singleton (Char.ofNat 162)

/-- The `us_cents` filter: `float` the value (failures return
`FORMAT_TAG_ERROR_VALUE`), clamp `places` to at least 0, and format the
absolute value with the sign taken from the original value. -/
def us_cents (g : PyGlobals) (value : FilterArg) (places : Int) :
    Except PyErr String × PyGlobals :=
  match value with
  | FilterArg.num q =>
    let places := (max 0 places).toNat
    let sign := if q < 0 then "-" else ""
    (Except.ok (sign ++ formatFixed |q| places true ++ centSymbol), g)
  | FilterArg.badStr _ => (Except.ok g.format_tag_error_value, g)
  | FilterArg.badType => (Except.ok g.format_tag_error_value, g)

/-- The `us_dollars_and_cents` filter: quantize to `cent_places` decimals
(`'1.' + '0' * cent_places`, so non-positive counts quantize to an integer)
with `ROUND_HALF_UP`, then format with `locale.currency`, appending
`str(value)[-(cent_places - 2):]` when more than two places were asked. -/
def us_dollars_and_cents (g : PyGlobals) (value : FilterArg) (cent_places : Int) :
    Except PyErr String × PyGlobals :=
  match value with
  | FilterArg.num q =>
    let qplaces := (max 0 cent_places).toNat
    let v := quantizeHalfUp q qplaces
    let cp := if cent_places < 2 then 2 else cent_places
    let extra :=
      if cp > 2 then pyTakeRight (decimalStr v qplaces) (cp - 2).toNat
      else ""
    (Except.ok (localeCurrency v ++ extra), g)
  | FilterArg.badStr _ => (Except.ok g.format_tag_error_value, g)
  | FilterArg.badType => (Except.ok g.format_tag_error_value, g)

/-- The `add_commas` filter: `Decimal(str(value))` (non-numeric input
returns `FORMAT_TAG_ERROR_VALUE`), optional `ROUND_HALF_UP` quantization,
then `locale.format("%." + str(round) + "f", value, grouping=True)`.  With
the default `round=None` the format string is the invalid `"%.Nonef"`,
which `locale.format` rejects with `ValueError`. -/
def add_commas (g : PyGlobals) (value : FilterArg) (round? : Option Nat) :
    Except PyErr String × PyGlobals :=
  match value with
  | FilterArg.num q =>
    match round? with
    | none => (Except.error PyErr.valueError, g)
    | some r =>
      let v := if r > 0 then quantizeHalfUp q r else quantizeHalfUp q 0
      (Except.ok (formatFixed v r true), g)
  | FilterArg.badStr _ => (Except.ok g.format_tag_error_value, g)
  | FilterArg.badType => (Except.ok g.format_tag_error_value, g)

/-- One invocation of a number-formatting filter with its arguments. -/
inductive FilterCall where
  | currencyCall (v : FilterArg)
  | usDollarsCall (v : FilterArg)
  | usCentsCall (v : FilterArg) (places : Int)
  | usDollarsAndCentsCall (v : FilterArg) (cent_places : Int)
  | addCommasCall (v : FilterArg) (round? : Option Nat)
deriving DecidableEq

/-- Run one filter call against the process-wide state. -/
def runCall (g : PyGlobals) : FilterCall → Except PyErr String × PyGlobals
  | FilterCall.currencyCall v => currency g v
  | FilterCall.usDollarsCall v => us_dollars g v
  | FilterCall.usCentsCall v places => us_cents g v places
  | FilterCall.usDollarsAndCentsCall v cp => us_dollars_and_cents g v cp
  | FilterCall.addCommasCall v r => add_commas g v r

/-- Run a sequence of filter calls, threading the process-wide state. -/
def runCalls (g : PyGlobals) : List FilterCall → PyGlobals
  | [] => g
  | c :: cs => runCalls (runCall g c).2 cs

/-! ## Concrete inputs used by witnesses and counterexamples -/

def circLineA : Line :=
  { source := "/a", target := some "/b", status_code := none,
    filename := "redirects.csv", line_number := 0 }

def circLineB : Line :=
  { source := "/b", target := some "/c", status_code := none,
    filename := "redirects.csv", line_number := 1 }

def circLines : List Line := [circLineA, circLineB]

def badStatusLine : Line :=
  { source := "/a", target := some "/b", status_code := some 200,
    filename := "redirects.csv", line_number := 0 }

def dupLineA : Line :=
  { source := "/dup", target := some "/x", status_code := none,
    filename := "redirects.csv", line_number := 0 }

def dupLineB : Line :=
  { source := "/dup", target := some "/y", status_code := none,
    filename := "redirects.csv", line_number := 1 }

def goneLine : Line :=
  { source := "/gone", target := none, status_code := some 200,
    filename := "redirects.csv", line_number := 0 }

def goneTable : RDict := [("/gone", Redirect.ofLine goneLine)]

def presentLine : Line :=
  { source := "/old", target := some "/new", status_code := some 302,
    filename := "redirects.csv", line_number := 1 }

def priorityLineFull : Line :=
  { source := "http://example.com/old", target := some "/byuri", status_code := none,
    filename := "redirects.csv", line_number := 0 }

def priorityLinePath : Line :=
  { source := "/old", target := some "/bypath", status_code := none,
    filename := "redirects.csv", line_number := 1 }

def priorityTable : RDict :=
  [("http://example.com/old", Redirect.ofLine priorityLineFull),
   ("/old", Redirect.ofLine priorityLinePath)]

def rfRequest : RfRequest :=
  { get_host := "example.com", site_domain := "example.com",
    get_full_path := "/old", build_absolute_uri := "http://example.com/old" }

def rfForeignRequest : RfRequest :=
  { get_host := "other.example.net", site_domain := "example.com",
    get_full_path := "/old", build_absolute_uri := "http://other.example.net/old" }

def rfTable : RDict := [("/old", Redirect.ofLine priorityLinePath)]

def gtfRequestUnmarked : GtfRequest := { path := "/about/", view_found := false }

def gtfRendered : HttpResponse := { status_code := 200, content := "about" }

def navAnchor : Anchor := { href := some "/blog/", classAttr := some "nav" }

/-! ## Helper lemmas about the dict model -/

theorem msgsOf_appendMsg (d : MsgDict) (k k' m : String) :
    msgsOf (appendMsg d k' m) k = if k' = k then msgsOf d k ++ [m] else msgsOf d k := by
  induction d with
  | nil =>
    by_cases h : k' = k <;> simp [appendMsg, msgsOf, h]
  | cons p rest ih =>
    by_cases h1 : p.1 = k'
    · by_cases h2 : p.1 = k <;> simp_all [appendMsg, msgsOf]
    · by_cases h2 : p.1 = k
      · subst h2
        have hne : ¬ k' = p.1 := fun hk => h1 hk.symm
        simp_all [appendMsg, msgsOf, if_neg hne]
      · simp_all [appendMsg, msgsOf]

theorem mem_msgsOf_appendMsg {m k : String} {d : MsgDict} (k' m' : String)
    (h : m ∈ msgsOf d k) : m ∈ msgsOf (appendMsg d k' m') k := by
  rw [msgsOf_appendMsg]
  by_cases hk : k' = k
  · simp only [if_pos hk]
    exact List.mem_append_left _ h
  · simpa [hk] using h

theorem self_mem_msgsOf_appendMsg (d : MsgDict) (k m : String) :
    m ∈ msgsOf (appendMsg d k m) k := by
  rw [msgsOf_appendMsg]
  simp

theorem isEmpty_eq_false_of_mem_msgsOf {m k : String} {d : MsgDict}
    (h : m ∈ msgsOf d k) : d.isEmpty = false := by
  cases d with
  | nil => simp [msgsOf] at h
  | cons p rest => rfl

theorem dictGet?_dictSet (d : RDict) (k k' : String) (v : Redirect) :
    dictGet? (dictSet d k' v) k = if k' = k then some v else dictGet? d k := by
  induction d with
  | nil =>
    by_cases h : k' = k <;> simp [dictSet, dictGet?, h]
  | cons p rest ih =>
    by_cases h1 : p.1 = k'
    · by_cases h2 : p.1 = k <;> simp_all [dictSet, dictGet?]
    · by_cases h2 : p.1 = k
      · subst h2
        have hne : ¬ k' = p.1 := fun hk => h1 hk.symm
        simp_all [dictSet, dictGet?, if_neg hne]
      · simp_all [dictSet, dictGet?]

theorem dictContains_dictSet (d : RDict) (k k' : String) (v : Redirect) :
    dictContains (dictSet d k' v) k = (k' == k || dictContains d k) := by
  induction d with
  | nil => simp [dictSet, dictContains]
  | cons p rest ih =>
    by_cases h1 : p.1 = k'
    · by_cases h2 : p.1 = k <;> simp_all [dictSet, dictContains]
    · by_cases h2 : p.1 = k <;> simp_all [dictSet, dictContains, Bool.or_left_comm]

theorem dictContains_eq_isSome (d : RDict) (k : String) :
    dictContains d k = (dictGet? d k).isSome := by
  induction d with
  | nil => simp [dictContains, dictGet?]
  | cons p rest ih =>
    by_cases h : p.1 = k <;> simp_all [dictContains, dictGet?]

/-! ## The dead per-redirect validation (`add_error` drops messages) -/

theorem Redirect.validate_fresh (r : Redirect) : r.validate none = some [] := by
  unfold Redirect.validate Redirect.add_error
  split <;> rfl

theorem Redirect.errorsOf_eq_nil (r : Redirect) : r.errorsOf = [] := by
  simp [Redirect.errorsOf, Redirect.validate_fresh]

theorem Redirect.is_valid_eq_false (r : Redirect) : r.is_valid = false := by
  simp [Redirect.is_valid, Redirect.validate_fresh]

theorem Redirect.ofLine_source (l : Line) :
    (Redirect.ofLine l).source = pyStrip l.source := rfl

/-! ## Behaviour of the first loop of `preprocess_redirects` -/

theorem processLine_redirects (st : PreState) (l : Line) :
    (processLine st l).redirects =
      dictSet st.redirects (pyStrip l.source) (Redirect.ofLine l) := rfl

theorem processLine_errors (st : PreState) (l : Line) :
    (processLine st l).errors = st.errors := by
  simp [processLine, Redirect.is_valid_eq_false, Redirect.errorsOf_eq_nil]

theorem processLine_warnings (st : PreState) (l : Line) :
    (processLine st l).warnings =
      if dictContains st.redirects (pyStrip l.source) then
        appendMsg st.warnings (pyStrip l.source) (duplicateWarningMsg l)
      else st.warnings := rfl

theorem foldl_processLine_errors (lines : List Line) (st : PreState) :
    (lines.foldl processLine st).errors = st.errors := by
  induction lines generalizing st with
  | nil => rfl
  | cons l rest ih => simp [List.foldl_cons, ih, processLine_errors]

theorem foldl_processLine_contains_mono (lines : List Line) (st : PreState)
    {s : String} (h : dictContains st.redirects s = true) :
    dictContains ((lines.foldl processLine st).redirects) s = true := by
  induction lines generalizing st with
  | nil => exact h
  | cons l rest ih =>
    refine ih _ ?_
    rw [processLine_redirects, dictContains_dictSet, h, Bool.or_true]

theorem mem_warnings_processLine {m s : String} (st : PreState) (l : Line)
    (h : m ∈ msgsOf st.warnings s) : m ∈ msgsOf (processLine st l).warnings s := by
  rw [processLine_warnings]
  split
  · exact mem_msgsOf_appendMsg _ _ h
  · exact h

theorem mem_warnings_foldl_processLine {m s : String} (lines : List Line)
    (st : PreState) (h : m ∈ msgsOf st.warnings s) :
    m ∈ msgsOf ((lines.foldl processLine st).warnings) s := by
  induction lines generalizing st with
  | nil => exact h
  | cons l rest ih => exact ih _ (mem_warnings_processLine st l h)

theorem foldl_processLine_get (lines : List Line) (st : PreState) (s : String) :
    dictGet? ((lines.foldl processLine st).redirects) s =
      match (lines.filter (fun l => pyStrip l.source == s)).getLast? with
      | some l => some (Redirect.ofLine l)
      | none => dictGet? st.redirects s := by
  induction lines using List.reverseRecOn with
  | nil => rfl
  | append_singleton ls l ih =>
    rw [List.foldl_append, List.foldl_cons, List.foldl_nil, processLine_redirects,
      dictGet?_dictSet, List.filter_append]
    by_cases h : pyStrip l.source = s
    · simp [h, List.getLast?_concat]
    · have : (pyStrip l.source == s) = false := by simp [h]
      simp [h, this, List.filter_cons, ih]

/-! ## Behaviour of the circular-redirect check loop -/

theorem mem_errors_validate_redirect {m k : String} (redirects : RDict)
    (r : Redirect) (ws : Bool) (ew : MsgDict × MsgDict)
    (h : m ∈ msgsOf ew.1 k) :
    m ∈ msgsOf (validate_redirect redirects r ws ew).1 k := by
  unfold validate_redirect
  split
  · exact h
  · split
    · exact mem_msgsOf_appendMsg _ _ h
    · split
      · split
        · exact mem_msgsOf_appendMsg _ _ h
        · split
          · exact h
          · exact h
      · exact h

theorem mem_warnings_validate_redirect {m k : String} (redirects : RDict)
    (r : Redirect) (ws : Bool) (ew : MsgDict × MsgDict)
    (h : m ∈ msgsOf ew.2 k) :
    m ∈ msgsOf (validate_redirect redirects r ws ew).2 k := by
  unfold validate_redirect
  split
  · exact h
  · split
    · exact h
    · split
      · split
        · exact h
        · split
          · exact mem_msgsOf_appendMsg _ _ h
          · exact h
      · exact h

theorem validate_redirect_fires (redirects : RDict) (r : Redirect)
    (ew : MsgDict × MsgDict)
    (h : dictContains redirects r.target = true ∨ r.target = r.parsed_source.path) :
    circularErrorMsg r ∈ msgsOf (validate_redirect redirects r false ew).1 r.source := by
  unfold validate_redirect
  rw [if_neg (by simp)]
  rw [if_pos h]
  exact self_mem_msgsOf_appendMsg _ _ _

theorem mem_errors_circularStep {m k : String} (redirects : RDict)
    (append_slash : Bool) (ew : MsgDict × MsgDict) (p : String × Redirect)
    (h : m ∈ msgsOf ew.1 k) :
    m ∈ msgsOf (circularStep redirects append_slash ew p).1 k := by
  unfold circularStep
  split
  · exact mem_errors_validate_redirect _ _ _ _ (mem_errors_validate_redirect _ _ _ _ h)
  · exact mem_errors_validate_redirect _ _ _ _ h

theorem mem_warnings_circularStep {m k : String} (redirects : RDict)
    (append_slash : Bool) (ew : MsgDict × MsgDict) (p : String × Redirect)
    (h : m ∈ msgsOf ew.2 k) :
    m ∈ msgsOf (circularStep redirects append_slash ew p).2 k := by
  unfold circularStep
  split
  · exact mem_warnings_validate_redirect _ _ _ _ (mem_warnings_validate_redirect _ _ _ _ h)
  · exact mem_warnings_validate_redirect _ _ _ _ h

theorem circularStep_fires (redirects : RDict) (append_slash : Bool)
    (ew : MsgDict × MsgDict) (p : String × Redirect)
    (h : dictContains redirects p.2.target = true ∨ p.2.target = p.2.parsed_source.path) :
    circularErrorMsg p.2 ∈ msgsOf (circularStep redirects append_slash ew p).1 p.2.source := by
  unfold circularStep
  split
  · exact mem_errors_validate_redirect _ _ _ _ (validate_redirect_fires _ _ _ h)
  · exact validate_redirect_fires _ _ _ h

theorem mem_errors_foldl_circularStep {m k : String} (l : RDict)
    (redirects : RDict) (append_slash : Bool) (ew : MsgDict × MsgDict)
    (h : m ∈ msgsOf ew.1 k) :
    m ∈ msgsOf (l.foldl (circularStep redirects append_slash) ew).1 k := by
  induction l generalizing ew with
  | nil => exact h
  | cons p rest ih => exact ih _ (mem_errors_circularStep _ _ _ _ h)

theorem mem_warnings_foldl_circularStep {m k : String} (l : RDict)
    (redirects : RDict) (append_slash : Bool) (ew : MsgDict × MsgDict)
    (h : m ∈ msgsOf ew.2 k) :
    m ∈ msgsOf (l.foldl (circularStep redirects append_slash) ew).2 k := by
  induction l generalizing ew with
  | nil => exact h
  | cons p rest ih => exact ih _ (mem_warnings_circularStep _ _ _ _ h)

theorem foldl_circularStep_fires (l : RDict) (redirects : RDict)
    (append_slash : Bool) (ew : MsgDict × MsgDict) (p : String × Redirect)
    (hmem : p ∈ l)
    (h : dictContains redirects p.2.target = true ∨ p.2.target = p.2.parsed_source.path) :
    circularErrorMsg p.2 ∈
      msgsOf (l.foldl (circularStep redirects append_slash) ew).1 p.2.source := by
  revert hmem
  induction l generalizing ew with
  | nil => intro hmem; cases hmem
  | cons q rest ih =>
    intro hmem
    rw [List.foldl_cons]
    rcases List.mem_cons.mp hmem with hq | hrest
    · subst hq
      exact mem_errors_foldl_circularStep _ _ _ _ (circularStep_fires _ _ _ _ h)
    · exact ih _ hrest

/-! ## Projections of `preprocessState` -/

theorem preprocessState_redirects (lines : List Line) (append_slash : Bool) :
    (preprocessState lines append_slash).redirects =
      (lines.foldl processLine {}).redirects := rfl

theorem preprocessState_errors (lines : List Line) (append_slash : Bool) :
    (preprocessState lines append_slash).errors =
      (circularPass (lines.foldl processLine {}).redirects append_slash
        ((lines.foldl processLine {}).errors, (lines.foldl processLine {}).warnings)).1 := rfl

theorem preprocessState_warnings (lines : List Line) (append_slash : Bool) :
    (preprocessState lines append_slash).warnings =
      (circularPass (lines.foldl processLine {}).redirects append_slash
        ((lines.foldl processLine {}).errors, (lines.foldl processLine {}).warnings)).2 := rfl

/-! ## Claim theorems for the redirect preprocessing -/

/-- C1: every redirect in the table produced by `preprocess_redirects` whose
target is itself a source key of the table, or whose target equals the path
of its own parsed source, gets a circular-redirect error recorded under its
source, and with `raise_errors=True` the function raises
`ImproperlyConfigured`. -/
theorem preprocess_flags_circular_redirects (lines : List Line) (append_slash : Bool)
    (p : String × Redirect)
    (hmem : p ∈ (preprocessState lines append_slash).redirects)
    (hcirc : dictContains (preprocessState lines append_slash).redirects p.2.target = true ∨
      p.2.target = p.2.parsed_source.path) :
    circularErrorMsg p.2 ∈ msgsOf (preprocessState lines append_slash).errors p.2.source ∧
    preprocess_redirects lines append_slash true = Except.error improperlyConfiguredMsg := by
  have hmem' : circularErrorMsg p.2 ∈
      msgsOf (preprocessState lines append_slash).errors p.2.source := by
    rw [preprocessState_errors]
    unfold circularPass
    exact foldl_circularStep_fires _ _ _ _ p hmem hcirc
  refine ⟨hmem', ?_⟩
  have hne := isEmpty_eq_false_of_mem_msgsOf hmem'
  unfold preprocess_redirects
  simp [hne]

/-- Witness for C1: in a table mapping `/a => /b` and `/b => /c`, the
redirect for `/a` targets the source key `/b`, so a circular-redirect error
is recorded for `/a` and preprocessing raises. -/
theorem preprocess_flags_circular_redirects_witness :
    ("/a", Redirect.ofLine circLineA) ∈ (preprocessState circLines false).redirects ∧
    circularErrorMsg (Redirect.ofLine circLineA) ∈
      msgsOf (preprocessState circLines false).errors "/a" ∧
    preprocess_redirects circLines false true = Except.error improperlyConfiguredMsg := by
  have h := preprocess_flags_circular_redirects circLines false
    ("/a", Redirect.ofLine circLineA) (by decide) (by decide)
  exact ⟨by decide, h.1, h.2⟩

/-- C2 (code bug): a CSV line with a status code outside 3xx/410 is meant to
fail validation, but `Redirect.add_error` drops its message and `is_valid`
returns `bool(self._errors)`, so validation never records anything: every
`Redirect` reports `is_valid() == False` with an empty error dict, and a
table consisting of the single redirect `/a => /b (200)` preprocesses
without error and without raising. -/
theorem status_code_validation_never_records :
    (∀ l : Line, Redirect.is_valid (Redirect.ofLine l) = false ∧
      Redirect.errorsOf (Redirect.ofLine l) = []) ∧
    (Redirect.ofLine badStatusLine).status_code = 200 ∧
    (preprocessState [badStatusLine] false).errors = [] ∧
    preprocess_redirects [badStatusLine] false true =
      Except.ok [("/a", Redirect.ofLine badStatusLine)] := by
  refine ⟨fun l => ⟨Redirect.is_valid_eq_false _, Redirect.errorsOf_eq_nil _⟩,
    by decide, by decide, by rfl⟩

/-- C3: when two lines of the input share a source (the table is keyed by
the stripped source URL), a duplicate-declaration warning derived from the
later line is recorded under that source, and the returned table maps the
source to the `Redirect` built from the last such line. -/
theorem duplicate_sources_warn_and_last_wins (pre mid post : List Line) (a b : Line)
    (append_slash : Bool) (s : String)
    (ha : pyStrip a.source = s) (hb : pyStrip b.source = s) :
    duplicateWarningMsg b ∈
      msgsOf (preprocessState (pre ++ a :: (mid ++ b :: post)) append_slash).warnings s ∧
    dictGet? (preprocessState (pre ++ a :: (mid ++ b :: post)) append_slash).redirects s =
      (((pre ++ a :: (mid ++ b :: post)).filter
        (fun l => pyStrip l.source == s)).getLast?).map Redirect.ofLine := by
  constructor
  · rw [preprocessState_warnings]
    unfold circularPass
    apply mem_warnings_foldl_circularStep
    have hfold : (pre ++ a :: (mid ++ b :: post)).foldl processLine ({} : PreState) =
        List.foldl processLine
          (processLine
            (List.foldl processLine (processLine (List.foldl processLine {} pre) a) mid) b)
          post := by
      simp [List.foldl_append, List.foldl_cons]
    rw [hfold]
    apply mem_warnings_foldl_processLine
    have hc : dictContains
        (List.foldl processLine (processLine (List.foldl processLine ({} : PreState) pre) a)
          mid).redirects s = true := by
      apply foldl_processLine_contains_mono
      rw [processLine_redirects, ha, dictContains_dictSet]
      simp
    rw [processLine_warnings, hb, if_pos hc]
    exact self_mem_msgsOf_appendMsg _ _ _
  · rw [preprocessState_redirects, foldl_processLine_get]
    cases hlast : ((pre ++ a :: (mid ++ b :: post)).filter
        (fun l => pyStrip l.source == s)).getLast? with
    | none => simp [dictGet?]
    | some l => simp

/-- Witness for C3: two lines declaring `/dup` produce a duplicate warning
from the second line, and the table keeps the redirect of the second line. -/
theorem duplicate_sources_warn_and_last_wins_witness :
    duplicateWarningMsg dupLineB ∈
      msgsOf (preprocessState [dupLineA, dupLineB] false).warnings "/dup" ∧
    dictGet? (preprocessState [dupLineA, dupLineB] false).redirects "/dup" =
      some (Redirect.ofLine dupLineB) := by
  have h := duplicate_sources_warn_and_last_wins [] [] [] dupLineA dupLineB false "/dup"
    (by decide) (by decide)
  refine ⟨h.1, ?_⟩
  have h2 := h.2
  simp only [List.nil_append, List.cons_append] at h2
  rw [h2]
  decide

/-! ## Claim theorems for `get_redirect` and the fallback middleware -/

theorem pyStrip_empty : pyStrip "" = "" := rfl

/-- C4: a redirect built from a line with a missing or empty target has
status code 410 regardless of the status code on the line, and a request
matching it yields a 410 response; with a target present the status code is
the one given on the line, defaulting to 301 when omitted. -/
theorem empty_target_gives_410 (l : Line) (rs : RDict) (path uri : String) :
    ((l.target = none ∨ l.target = some "") →
      (Redirect.ofLine l).status_code = 410 ∧
      (redirectFor rs path uri = some (Redirect.ofLine l) →
        get_redirect rs path uri =
          some { status_code := 410, location := none, content := "" })) ∧
    ((∀ s, l.target = some s → s ≠ "") → l.target ≠ none →
      (Redirect.ofLine l).status_code = l.status_code.getD 301) := by
  constructor
  · intro h
    have htgt : l.target.getD "" = "" := by rcases h with h | h <;> simp [h]
    have hstatus : (Redirect.ofLine l).status_code = 410 := by
      simp [Redirect.ofLine, htgt]
    have htarget : (Redirect.ofLine l).target = "" := by
      simp [Redirect.ofLine, htgt, pyStrip_empty]
    refine ⟨hstatus, fun hmatch => ?_⟩
    unfold get_redirect
    rw [hmatch]
    simp [htarget, hstatus]
  · intro hs hn
    have hne : l.target.getD "" ≠ "" := by
      cases ht : l.target with
      | none => exact absurd ht hn
      | some s => simpa using hs s ht
    simp [Redirect.ofLine, hne]

/-- Witness for C4: the targetless line `/gone` (despite carrying status
200) becomes a 410 redirect and a matching request gets a 410 response,
while `/old => /new (302)` keeps its given status code. -/
theorem empty_target_gives_410_witness :
    (Redirect.ofLine goneLine).status_code = 410 ∧
    get_redirect goneTable "/gone" "http://example.com/gone" =
      some { status_code := 410, location := none, content := "" } ∧
    (Redirect.ofLine presentLine).status_code = 302 := by
  have h1 := (empty_target_gives_410 goneLine goneTable "/gone"
    "http://example.com/gone").1 (Or.inl rfl)
  refine ⟨h1.1, h1.2 (by decide), ?_⟩
  have h2 := (empty_target_gives_410 presentLine goneTable "/gone" "x").2
    (by intro s hs; cases hs; decide) (by decide)
  exact h2

/-- C9 (amended): `get_redirect` looks up the full URI, then the IRI-to-URI
encoded path, then the raw path, returns `None` exactly when none of the
three is a key, and otherwise builds a response with the matched redirect's
status code whose `Location` header is its target when the target is
non-empty and `None` (unset) when the target is empty. -/
theorem get_redirect_priority (rs : RDict) (path uri : String) :
    (get_redirect rs path uri = none ↔
      dictContains rs uri = false ∧ dictContains rs (iri_to_uri path) = false ∧
        dictContains rs path = false) ∧
    (∀ r, dictContains rs uri = true → dictGet? rs uri = some r →
      get_redirect rs path uri =
        some { status_code := r.status_code,
               location := if r.target ≠ "" then some r.target else none,
               content := "" }) ∧
    (∀ r, dictContains rs uri = false → dictGet? rs (iri_to_uri path) = some r →
      get_redirect rs path uri =
        some { status_code := r.status_code,
               location := if r.target ≠ "" then some r.target else none,
               content := "" }) ∧
    (∀ r, dictContains rs uri = false → dictContains rs (iri_to_uri path) = false →
      dictGet? rs path = some r →
      get_redirect rs path uri =
        some { status_code := r.status_code,
               location := if r.target ≠ "" then some r.target else none,
               content := "" }) := by
  refine ⟨?_, ?_, ?_, ?_⟩
  · unfold get_redirect redirectFor
    by_cases h1 : dictContains rs uri = true
    · rw [if_pos h1]
      obtain ⟨v, hv⟩ := Option.isSome_iff_exists.mp
        (by rw [← dictContains_eq_isSome]; exact h1)
      rw [hv]
      simp [h1]
    · rw [if_neg h1]
      by_cases h2 : dictContains rs (iri_to_uri path) = true
      · rw [if_pos h2]
        obtain ⟨v, hv⟩ := Option.isSome_iff_exists.mp
          (by rw [← dictContains_eq_isSome]; exact h2)
        rw [hv]
        simp [h2]
      · rw [if_neg h2]
        by_cases h3 : dictContains rs path = true
        · rw [if_pos h3]
          obtain ⟨v, hv⟩ := Option.isSome_iff_exists.mp
            (by rw [← dictContains_eq_isSome]; exact h3)
          rw [hv]
          simp [h3]
        · rw [if_neg h3]
          simp [eq_false_of_ne_true h1, eq_false_of_ne_true h2, eq_false_of_ne_true h3]
  · intro r h1 hr
    unfold get_redirect redirectFor
    rw [if_pos h1, hr]
  · intro r h1 hr
    unfold get_redirect redirectFor
    rw [if_neg (by simp [h1]), if_pos (by rw [dictContains_eq_isSome, hr]; rfl), hr]
  · intro r h1 h2 hr
    unfold get_redirect redirectFor
    rw [if_neg (by simp [h1]), if_neg (by simp [h2]),
      if_pos (by rw [dictContains_eq_isSome, hr]; rfl), hr]

/-- Counterexample to C9 as stated: for the 410 entry `/gone` the matched
redirect's target is the empty string, but the response's `Location` header
is `None`, not that target. -/
theorem get_redirect_location_counterexample :
    (dictGet? goneTable "/gone").map (fun r => r.target) = some "" ∧
    (get_redirect goneTable "/gone" "http://example.com/gone").map
      (fun r => r.location) = some none ∧
    (get_redirect goneTable "/gone" "http://example.com/gone").map
      (fun r => r.location) ≠
      (dictGet? goneTable "/gone").map (fun r => some r.target) := by
  refine ⟨by decide, by decide, by decide⟩

/-- Witness for the amended C9: with entries for both the full URI and the
path, the full-URI entry wins; with only the path entry, the path match is
used; an unknown path yields `None`. -/
theorem get_redirect_priority_witness :
    get_redirect priorityTable "/old" "http://example.com/old" =
      some { status_code := 301, location := some "/byuri", content := "" } ∧
    get_redirect [("/old", Redirect.ofLine priorityLinePath)] "/old" "http://example.com/old" =
      some { status_code := 301, location := some "/bypath", content := "" } ∧
    get_redirect priorityTable "/missing" "http://example.com/missing" = none := by
  refine ⟨?_, ?_, ?_⟩
  · have h := (get_redirect_priority priorityTable "/old" "http://example.com/old").2.1
      (Redirect.ofLine priorityLineFull) (by decide) (by decide)
    rw [h]
    decide
  · have h := (get_redirect_priority [("/old", Redirect.ofLine priorityLinePath)]
      "/old" "http://example.com/old").2.2.1
      (Redirect.ofLine priorityLinePath) (by decide) (by decide)
    rw [h]
    decide
  · exact (get_redirect_priority priorityTable "/missing"
      "http://example.com/missing").1.mpr (by decide)

/-- C10: `RedirectFallbackMiddleware.process_response` passes a response
through untouched when it is not a 404 and the request host matches the
current site's domain; otherwise — including non-404 responses from a
foreign host — it consults the redirect table, returning the matching
redirect response when one exists and the original response otherwise. -/
theorem redirect_fallback_behavior (redirects : RDict) (request : RfRequest)
    (response : HttpResponse) :
    (response.status_code ≠ 404 ∧ request.site_domain = request.get_host →
      RedirectFallbackMiddleware.process_response redirects request response = response) ∧
    (¬ (response.status_code ≠ 404 ∧ request.site_domain = request.get_host) →
      (∀ r, get_redirect redirects request.get_full_path request.build_absolute_uri = some r →
        RedirectFallbackMiddleware.process_response redirects request response = r) ∧
      (get_redirect redirects request.get_full_path request.build_absolute_uri = none →
        RedirectFallbackMiddleware.process_response redirects request response = response)) := by
  constructor
  · intro h
    unfold RedirectFallbackMiddleware.process_response
    rw [if_pos h]
  · intro h
    constructor
    · intro r hr
      unfold RedirectFallbackMiddleware.process_response
      rw [if_neg h, hr]
    · intro hn
      unfold RedirectFallbackMiddleware.process_response
      rw [if_neg h, hn]

/-- Witness for C10: a 404 on the current site is replaced by the table's
redirect; a 200 on the current site passes through; a 200 from a foreign
host is also looked up and redirected. -/
theorem redirect_fallback_behavior_witness :
    RedirectFallbackMiddleware.process_response rfTable rfRequest
      { status_code := 404 } =
      { status_code := 301, location := some "/bypath", content := "" } ∧
    RedirectFallbackMiddleware.process_response rfTable rfRequest
      { status_code := 200 } = { status_code := 200 } ∧
    RedirectFallbackMiddleware.process_response rfTable rfForeignRequest
      { status_code := 200 } =
      { status_code := 301, location := some "/bypath", content := "" } := by
  refine ⟨?_, ?_, ?_⟩
  · exact ((redirect_fallback_behavior rfTable rfRequest { status_code := 404 }).2
      (by decide)).1 _ (by decide)
  · exact (redirect_fallback_behavior rfTable rfRequest { status_code := 200 }).1
      (by decide)
  · exact ((redirect_fallback_behavior rfTable rfForeignRequest { status_code := 200 }).2
      (by decide)).1 _ (by decide)

/-! ## Claim theorems for the template-finder view and middleware -/

theorem tryTemplates_eq_find (f : String → Bool) (append_slash : Bool)
    (path request_path : String) (ps : List String) :
    tryTemplates f append_slash path request_path ps =
      (ps.find? f).map (fun t =>
        if pyEndsWith t ".html" ∧ ¬ pyEndsWith path request_path ∧ append_slash then
          FinderResult.permanentRedirect path
        else FinderResult.rendered t) := by
  induction ps with
  | nil => rfl
  | cons t ts ih =>
    by_cases h : f t = true
    · simp [tryTemplates, List.find?, h]
    · have h' : f t = false := eq_false_of_ne_true h
      simp [tryTemplates, List.find?, h', ih]

/-- C5 (amended): `generic_template_finder_view` appends a trailing slash to
the path when missing, tries exactly the three template names (the
slash-stripped path plus `.html`, the left-stripped path plus `index.html`,
the slash-stripped path) in order, and raises `Http404` when none exists; it
returns the rendering of the first one that exists, except that when the
found name ends in `.html`, the path was modified by the appended slash, and
`settings.APPEND_SLASH` is set, it returns a permanent redirect to the
slash-appended path instead. -/
theorem template_finder_characterization (template_found : String → Bool)
    (append_slash : Bool) (request_path base_path : String) :
    generic_template_finder_view template_found append_slash request_path base_path =
      match (finderPossibilities (finderPath request_path base_path)).find? template_found with
      | none => FinderResult.http404 ("Template not found in any of " ++
          possibilitiesRepr (finderPossibilities (finderPath request_path base_path)))
      | some t =>
        if pyEndsWith t ".html" ∧
            ¬ pyEndsWith (finderPath request_path base_path) request_path ∧ append_slash then
          FinderResult.permanentRedirect (finderPath request_path base_path)
        else FinderResult.rendered t := by
  simp only [generic_template_finder_view]
  rw [tryTemplates_eq_find]
  cases hf : (finderPossibilities (finderPath request_path base_path)).find? template_found with
  | none => simp
  | some t => simp

/-- Counterexample to C5 as stated: with `APPEND_SLASH` on, a request for
`/foo` whose first candidate `foo.html` exists does not get the rendering of
`foo.html` — the view returns a permanent redirect to `/foo/` instead. -/
theorem template_finder_redirect_counterexample :
    (finderPossibilities (finderPath "/foo" "")).find? (fun t => t == "foo.html") =
      some "foo.html" ∧
    generic_template_finder_view (fun t => t == "foo.html") true "/foo" "" =
      FinderResult.permanentRedirect "/foo/" ∧
    generic_template_finder_view (fun t => t == "foo.html") true "/foo" "" ≠
      FinderResult.rendered "foo.html" := by
  refine ⟨by decide, by decide, by decide⟩

/-- C6: `GenericTemplateFinderMiddleware.process_response` returns the given
response unchanged unless it is a 404 on a request not marked by
`process_view`; only such an unmarked 404 invokes the template-finder view,
whose `Http404` and `UnicodeEncodeError` outcomes fall back to the original
response, and `process_view` marks the request. -/
theorem gtfm_process_response_behavior (request : GtfRequest) (response : HttpResponse)
    (finder : ViewOutcome) :
    ((response.status_code ≠ 404 ∨ request.view_found = true) →
      GenericTemplateFinderMiddleware.process_response request response finder = response) ∧
    (response.status_code = 404 → request.view_found = false →
      ((finder = ViewOutcome.http404Exc ∨ finder = ViewOutcome.unicodeEncodeError) →
        GenericTemplateFinderMiddleware.process_response request response finder = response) ∧
      (∀ r, finder = ViewOutcome.ok r →
        GenericTemplateFinderMiddleware.process_response request response finder = r)) ∧
    (GenericTemplateFinderMiddleware.process_view request).view_found = true := by
  refine ⟨?_, ?_, rfl⟩
  · intro h
    unfold GenericTemplateFinderMiddleware.process_response
    rw [if_neg]
    intro hc
    rcases h with h | h
    · exact h hc.1
    · rw [h] at hc
      exact hc.2 rfl
  · intro h404 hnf
    have hcond : response.status_code = 404 ∧ ¬ request.view_found = true :=
      ⟨h404, by simp [hnf]⟩
    constructor
    · intro hf
      unfold GenericTemplateFinderMiddleware.process_response
      rw [if_pos hcond]
      rcases hf with hf | hf <;> rw [hf]
    · intro r hf
      unfold GenericTemplateFinderMiddleware.process_response
      rw [if_pos hcond, hf]

/-- Witness for C6: an unmarked 404 is replaced by the view's response, the
view raising `Http404` leaves the 404 untouched, and after `process_view`
marks the request the 404 passes through even though the view would
succeed. -/
theorem gtfm_process_response_behavior_witness :
    GenericTemplateFinderMiddleware.process_response gtfRequestUnmarked
      { status_code := 404 } (ViewOutcome.ok gtfRendered) = gtfRendered ∧
    GenericTemplateFinderMiddleware.process_response gtfRequestUnmarked
      { status_code := 404 } ViewOutcome.http404Exc = { status_code := 404 } ∧
    GenericTemplateFinderMiddleware.process_response
      (GenericTemplateFinderMiddleware.process_view gtfRequestUnmarked)
      { status_code := 404 } (ViewOutcome.ok gtfRendered) = { status_code := 404 } := by
  refine ⟨?_, ?_, ?_⟩
  · exact ((gtfm_process_response_behavior gtfRequestUnmarked { status_code := 404 }
      (ViewOutcome.ok gtfRendered)).2.1 rfl rfl).2 gtfRendered rfl
  · exact ((gtfm_process_response_behavior gtfRequestUnmarked { status_code := 404 }
      ViewOutcome.http404Exc).2.1 rfl rfl).1 (Or.inl rfl)
  · exact (gtfm_process_response_behavior
      (GenericTemplateFinderMiddleware.process_view gtfRequestUnmarked)
      { status_code := 404 } (ViewOutcome.ok gtfRendered)).1 (Or.inr rfl)

/-! ## Claim theorems for the template tags and filters -/

theorem is_here_iff (path h : String) :
    is_here path h = true ↔ (if h = "/" then path = "/" else pyStartsWith path h = true) := by
  unfold is_here
  by_cases hs : h = "/"
  · simp [hs]
  · have hb : (h == "/") = false := by simp [hs]
    rw [hb]
    simp only [Bool.false_eq_true, if_false, hs]
    cases hp : pyStartsWith path h <;> simp [hp]

theorem highlightElem_ne (a : Anchor) : highlightElem "here" a ≠ a := by
  intro he
  have hc := congrArg Anchor.classAttr he
  simp only [highlightElem] at hc
  cases hca : a.classAttr with
  | none => rw [hca] at hc; exact Option.noConfusion hc
  | some c =>
    rw [hca] at hc
    have heq : addclass (some c) "here" = c := Option.some.inj hc
    have hlen := congrArg String.length heq
    by_cases hc0 : c = ""
    · rw [hc0] at heq
      exact absurd heq (by decide)
    · rw [addclass] at hlen
      simp only [Option.getD] at hlen
      rw [if_pos hc0] at hlen
      rw [String.length_append, String.length_append] at hlen
      have h1 : (" " : String).length = 1 := rfl
      have h4 : ("here" : String).length = 4 := rfl
      omega

/-- C7: under `highlight_here` with the default class, an anchor carrying an
`href` gets the `here` class appended to its `class` attribute exactly when
the current path is underneath the `href`: for `href = "/"` only the exact
path `/`, otherwise exactly when the path starts with the `href`; the class
is appended after any existing class value. -/
theorem highlight_here_adds_class_iff (path : String) (a : Anchor) (h : String)
    (hh : a.href = some h) :
    (highlight_here path none [a] = [highlightElem "here" a] ↔
      (if h = "/" then path = "/" else pyStartsWith path h = true)) ∧
    (∀ c : String, addclass (some c) "here" =
      if c = "" then "here" else c ++ " here") := by
  constructor
  · rw [← is_here_iff path h]
    simp only [highlight_here, List.map, hh, Option.isSome_some, Bool.true_and, Option.getD]
    constructor
    · intro heq
      by_cases hih : is_here path h = true
      · exact hih
      · exfalso
        have hih' : is_here path h = false := eq_false_of_ne_true hih
        rw [hih'] at heq
        simp only [Bool.false_eq_true, if_false, List.cons.injEq, and_true] at heq
        exact highlightElem_ne a heq.symm
    · intro hih
      rw [hih]
      simp
  · intro c
    by_cases hc0 : c = ""
    · rw [hc0]
      decide
    · rw [addclass]
      simp only [Option.getD]
      rw [if_pos hc0, if_neg hc0]
      rfl

/-- Witness for C7: on path `/blog/post` the anchor with `href="/blog/"` and
`class="nav"` is highlighted, its class becoming `nav here`. -/
theorem highlight_here_adds_class_iff_witness :
    highlight_here "/blog/post" none [navAnchor] = [highlightElem "here" navAnchor] ∧
    addclass (some "nav") "here" = "nav here" := by
  have h := highlight_here_adds_class_iff "/blog/post" navAnchor "/blog/" rfl
  refine ⟨h.1.mpr (by decide), ?_⟩
  rw [h.2 "nav"]
  decide

/-- C8: the number-formatting filters are stateless and deterministic — a
filter call leaves the process-wide state (locale, error constant) exactly
as it found it, so any earlier sequence of filter calls leaves the state
unchanged and a call's result depends only on its own arguments and that
state. -/
theorem filters_stateless_and_deterministic (g : PyGlobals) (pre : List FilterCall)
    (c : FilterCall) :
    runCalls g pre = g ∧ (runCall g c).2 = g ∧
    (runCall (runCalls g pre) c).1 = (runCall g c).1 := by
  have hstate : ∀ (g' : PyGlobals) (c' : FilterCall), (runCall g' c').2 = g' := by
    intro g' c'
    cases c' with
    | currencyCall v => cases v <;> rfl
    | usDollarsCall v => cases v <;> rfl
    | usCentsCall v places => cases v <;> rfl
    | usDollarsAndCentsCall v cp => cases v <;> rfl
    | addCommasCall v r => cases r <;> cases v <;> rfl
  have hruns : ∀ (l : List FilterCall) (g0 : PyGlobals), runCalls g0 l = g0 := by
    intro l
    induction l with
    | nil => intro g0; rfl
    | cons c0 rest ih =>
      intro g0
      rw [runCalls, hstate, ih]
  exact ⟨hruns pre g, hstate g c, by rw [hruns pre g]⟩

end Fusionbox
